import Mathlib

/-!
Verification of the access-control and resource-ownership model of the
digital-life-back lesson-sharing API (src/index.js).

The embedding models the three MongoDB collections (`users`, `lessons`,
`reports` — only the first two carry invariants) as Lean lists and each
Express route handler as a pure function from a database state (plus the
caller's resolved identity) to a response and a new state.  A caller is
`Option String`: `none` models a request whose bearer credential is missing
or invalid, which the `verifyToken` middleware rejects before the handler
runs; `some email` models a validated token resolving to `email`.
Mongo `_id` values are modelled as `Nat`, `new Date()` timestamps as `Nat`.
-/

namespace DigitalLife

/-- A document of the `users` collection.  `profile` stands for the
free-form caller-supplied profile fields that the routes never interpret. -/
structure Account where
  email : String
  role : String
  isPremium : Bool
  createdAt : Nat
  profile : String
deriving DecidableEq

/-- A document of the `lessons` collection. -/
structure Lesson where
  id : Nat
  creatorEmail : String
  accessLevel : String
  visibility : String
  category : String
  emotionalTone : String
  title : String
  content : String
  likes : List String
  favorites : List String
  createdAt : Nat
deriving DecidableEq

/-- The durable state the routes read and write. -/
structure DB where
  users : List Account
  lessons : List Lesson
deriving DecidableEq

/-- `users.findOne({ email })`: first account with the given email. -/
def findUser (db : DB) (email : String) : Option Account :=
  db.users.find? (fun u => u.email == email)

/-- `lessons.findOne({ _id: new ObjectId(id) })`: first lesson with the given id. -/
def findLesson (db : DB) (id : Nat) : Option Lesson :=
  db.lessons.find? (fun l => l.id == id)

/-- The JS expression `user?.isPremium` for `user = await users.findOne({ email })`:
`undefined` (no account for the email) is falsy. -/
def accountIsPremium (db : DB) (email : String) : Bool :=
  ((findUser db email).map Account.isPremium).getD false

/-- Responses of `GET /lessons/:id`. -/
inductive GetRes
  | ok (lesson : Lesson)
  | notFound
  | forbidden (msg : String)
  | unauthorized
deriving DecidableEq

/-- `GET /lessons/:id` (src/index.js lines 126-145).  The route is guarded by
`verifyToken`, so a missing or invalid credential is rejected with 401 before
the lesson is ever read. -/
def getLesson (db : DB) (caller : Option String) (id : Nat) : GetRes :=
  match caller with
  | none => .unauthorized
  | some email =>
    match findLesson db id with
    | none => .notFound
    | some lesson =>
      if lesson.accessLevel == "premium" then
        if !accountIsPremium db email && email != lesson.creatorEmail then
          .forbidden "Upgrade to Premium to view this lesson"
        else
          .ok lesson
      else
        .ok lesson

/-- A fixed database used to instantiate theorems at concrete inputs:
four accounts (one premium, one admin) and two lessons (one premium,
one public), both created by `alice`. -/
def alice : Account := ⟨"alice", "user", false, 0, ""⟩

def bob : Account := ⟨"bob", "user", true, 0, ""⟩

def carol : Account := ⟨"carol", "user", false, 0, ""⟩

def dave : Account := ⟨"dave", "admin", false, 0, ""⟩

def premLesson : Lesson :=
  ⟨1, "alice", "premium", "public", "life", "calm", "Premium wisdom", "text", [], [], 10⟩

def pubLesson : Lesson :=
  ⟨2, "alice", "public", "public", "life", "calm", "Open wisdom", "text", ["x"], ["x"], 20⟩

def exDB : DB := ⟨[alice, bob, carol, dave], [premLesson, pubLesson]⟩

/-- C1: for a premium lesson, an authenticated caller receives the lesson iff
the caller's account has `isPremium = true` or the caller's email is the
lesson's `creatorEmail`; every other authenticated caller is rejected with the
premium-required forbidden message, and an id matching no stored lesson yields
not-found. -/
theorem getLesson_premium_access (db : DB) (email : String) (id : Nat) (lesson : Lesson)
    (hfind : findLesson db id = some lesson) (hprem : lesson.accessLevel = "premium") :
    (getLesson db (some email) id = GetRes.ok lesson ↔
        accountIsPremium db email = true ∨ email = lesson.creatorEmail)
    ∧ (accountIsPremium db email = false → email ≠ lesson.creatorEmail →
        getLesson db (some email) id = GetRes.forbidden "Upgrade to Premium to view this lesson")
    ∧ (∀ j, findLesson db j = none → getLesson db (some email) j = GetRes.notFound) := by
  refine ⟨?_, ?_, ?_⟩
  · cases hp : accountIsPremium db email <;>
      cases hc : email == lesson.creatorEmail <;>
        simp_all [getLesson, hfind, hprem]
  · intro hp hc
    simp [getLesson, hfind, hprem, hp, hc]
  · intro j hj
    simp [getLesson, hj]

/-- C1 at concrete inputs: `bob` (premium account) and creator `alice` can read
the premium lesson, `carol` (non-premium, non-creator) is refused, and an
absent id yields not-found. -/
theorem getLesson_premium_access_witness :
    getLesson exDB (some "bob") 1 = GetRes.ok premLesson
    ∧ getLesson exDB (some "alice") 1 = GetRes.ok premLesson
    ∧ getLesson exDB (some "carol") 1 =
        GetRes.forbidden "Upgrade to Premium to view this lesson"
    ∧ getLesson exDB (some "carol") 99 = GetRes.notFound := by
  refine ⟨?_, ?_, ?_, ?_⟩
  · exact (getLesson_premium_access exDB "bob" 1 premLesson (by decide)
      (by decide)).1.mpr (Or.inl (by decide))
  · exact (getLesson_premium_access exDB "alice" 1 premLesson (by decide)
      (by decide)).1.mpr (Or.inr (by decide))
  · exact (getLesson_premium_access exDB "carol" 1 premLesson (by decide)
      (by decide)).2.1 (by decide) (by decide)
  · exact (getLesson_premium_access exDB "carol" 1 premLesson (by decide)
      (by decide)).2.2 99 (by decide)

/-- C4 as stated is false on the code: the by-id route is guarded by
`verifyToken`, so a caller carrying no credential receives the unauthorized
signal and never the lesson, even for a public lesson. -/
theorem getLesson_public_unauthenticated_counterexample :
    pubLesson.accessLevel = "public"
    ∧ findLesson exDB 2 = some pubLesson
    ∧ getLesson exDB none 2 = GetRes.unauthorized
    ∧ getLesson exDB none 2 ≠ GetRes.ok pubLesson := by
  refine ⟨by decide, by decide, by decide, by decide⟩

/-- C4 amended: a public lesson is returned by the by-id route to every
authenticated caller, whoever they are; an unauthenticated caller is rejected
with the unauthorized signal by `verifyToken`. -/
theorem getLesson_public_access (db : DB) (id : Nat) (lesson : Lesson)
    (hfind : findLesson db id = some lesson) (hpub : lesson.accessLevel = "public") :
    (∀ email, getLesson db (some email) id = GetRes.ok lesson)
    ∧ getLesson db none id = GetRes.unauthorized := by
  refine ⟨?_, by simp [getLesson]⟩
  intro email
  simp [getLesson, hfind, hpub]

/-- C4 amended, at concrete inputs: the public lesson is returned to an
arbitrary authenticated caller with no account at all, and the request with no
credential is rejected. -/
theorem getLesson_public_access_witness :
    getLesson exDB (some "nobody") 2 = GetRes.ok pubLesson
    ∧ getLesson exDB none 2 = GetRes.unauthorized := by
  refine ⟨?_, ?_⟩
  · exact (getLesson_public_access exDB 2 pubLesson (by decide) (by decide)).1 "nobody"
  · exact (getLesson_public_access exDB 2 pubLesson (by decide) (by decide)).2

/-- The request body of `PUT /lessons/:id`, as Mongo sees it through
`{ $set: req.body }`: each field present in the body overwrites the stored
field of the same name; absent fields are untouched.  The body is raw client
input, so it may carry any lesson field, `creatorEmail` included. -/
structure LessonPatch where
  creatorEmail : Option String
  accessLevel : Option String
  visibility : Option String
  category : Option String
  emotionalTone : Option String
  title : Option String
  content : Option String
  likes : Option (List String)
  favorites : Option (List String)
  createdAt : Option Nat
deriving DecidableEq

/-- `lessons.updateOne({ _id }, { $set: body })` applied to the matched
document. -/
def applyPatch (l : Lesson) (p : LessonPatch) : Lesson :=
  { l with
    creatorEmail := p.creatorEmail.getD l.creatorEmail
    accessLevel := p.accessLevel.getD l.accessLevel
    visibility := p.visibility.getD l.visibility
    category := p.category.getD l.category
    emotionalTone := p.emotionalTone.getD l.emotionalTone
    title := p.title.getD l.title
    content := p.content.getD l.content
    likes := p.likes.getD l.likes
    favorites := p.favorites.getD l.favorites
    createdAt := p.createdAt.getD l.createdAt }

/-- A patch touching nothing. -/
def emptyPatch : LessonPatch :=
  ⟨none, none, none, none, none, none, none, none, none, none⟩

/-- `updateOne` semantics on the lessons collection: rewrite the first
document matching the id, leave everything else alone; no match, no change. -/
def updateFirstLesson (ls : List Lesson) (id : Nat) (f : Lesson → Lesson) : List Lesson :=
  match ls with
  | [] => []
  | l :: rest => if l.id == id then f l :: rest else l :: updateFirstLesson rest id f

/-- `deleteOne` semantics on the lessons collection: drop the first document
matching the id. -/
def deleteFirstLesson (ls : List Lesson) (id : Nat) : List Lesson :=
  match ls with
  | [] => []
  | l :: rest => if l.id == id then rest else l :: deleteFirstLesson rest id

/-- The JS test `lesson.creatorEmail !== req.user.email && user.role !== "admin"`
guarding update and delete, with JS short-circuiting: when the caller is the
creator, `user.role` is never read; otherwise reading `.role` of a `null`
lookup result throws a TypeError, modelled as `none`. -/
def ownershipDenied (lesson : Lesson) (email : String) (user : Option Account) : Option Bool :=
  if lesson.creatorEmail == email then some false
  else
    match user with
    | none => none
    | some u => some (u.role != "admin")

/-- Responses of the mutating lesson routes. -/
inductive MutRes
  | ok
  | notFound
  | forbidden (msg : String)
  | unauthorized
  | serverError
deriving DecidableEq

/-- `PUT /lessons/:id` (src/index.js lines 167-183): load the lesson (404 when
absent), then the ownership test, then `$set` the whole request body over the
stored document. -/
def updateLesson (db : DB) (caller : Option String) (id : Nat) (patch : LessonPatch) :
    MutRes × DB :=
  match caller with
  | none => (.unauthorized, db)
  | some email =>
    match findLesson db id with
    | none => (.notFound, db)
    | some lesson =>
      match ownershipDenied lesson email (findUser db email) with
      | none => (.serverError, db)
      | some true => (.forbidden "Not authorized", db)
      | some false =>
        (.ok, { db with lessons := updateFirstLesson db.lessons id (fun l => applyPatch l patch) })

/-- `DELETE /lessons/:id` (src/index.js lines 186-201): same load and ownership
test as update, then `deleteOne`. -/
def deleteLesson (db : DB) (caller : Option String) (id : Nat) : MutRes × DB :=
  match caller with
  | none => (.unauthorized, db)
  | some email =>
    match findLesson db id with
    | none => (.notFound, db)
    | some lesson =>
      match ownershipDenied lesson email (findUser db email) with
      | none => (.serverError, db)
      | some true => (.forbidden "Not authorized", db)
      | some false => (.ok, { db with lessons := deleteFirstLesson db.lessons id })

/-- C2: for an authenticated caller holding an account, update and delete of an
existing lesson succeed iff the caller is the lesson's creator or the account's
role is admin; any other such caller gets the forbidden signal; an id matching
no lesson yields not-found for every caller, before any ownership test. -/
theorem updateDelete_ownership (db : DB) (email : String) (id : Nat) (patch : LessonPatch)
    (acct : Account) (hacct : findUser db email = some acct) :
    (∀ lesson, findLesson db id = some lesson →
      (((updateLesson db (some email) id patch).1 = MutRes.ok
          ∧ (deleteLesson db (some email) id).1 = MutRes.ok) ↔
        (email = lesson.creatorEmail ∨ acct.role = "admin")))
    ∧ (∀ lesson, findLesson db id = some lesson →
        email ≠ lesson.creatorEmail → acct.role ≠ "admin" →
          (updateLesson db (some email) id patch).1 = MutRes.forbidden "Not authorized"
          ∧ (deleteLesson db (some email) id).1 = MutRes.forbidden "Not authorized")
    ∧ (findLesson db id = none →
        (updateLesson db (some email) id patch).1 = MutRes.notFound
        ∧ (deleteLesson db (some email) id).1 = MutRes.notFound) := by
  refine ⟨?_, ?_, ?_⟩
  · intro lesson hfind
    by_cases hc : lesson.creatorEmail = email
    · have hod : ownershipDenied lesson email (findUser db email) = some false := by
        simp [ownershipDenied, hc]
      simp [updateLesson, deleteLesson, hfind, hod, hc]
    · by_cases hr : acct.role = "admin"
      · have hod : ownershipDenied lesson email (findUser db email) = some false := by
          simp [ownershipDenied, hacct, hc, hr]
        simp [updateLesson, deleteLesson, hfind, hod, hr]
      · have hod : ownershipDenied lesson email (findUser db email) = some true := by
          simp [ownershipDenied, hacct, hc, hr]
        simp only [updateLesson, deleteLesson, hfind, hod]
        constructor
        · intro h
          exact absurd h.1 (by simp)
        · intro h
          rcases h with h | h
          · exact absurd h.symm hc
          · exact absurd h hr
  · intro lesson hfind hc hr
    have hc2 : ¬lesson.creatorEmail = email := fun h => hc h.symm
    have hod : ownershipDenied lesson email (findUser db email) = some true := by
      simp [ownershipDenied, hacct, hc2, hr]
    simp [updateLesson, deleteLesson, hfind, hod]
  · intro hnone
    simp [updateLesson, deleteLesson, hnone]

/-- C2 at concrete inputs: creator `alice` and admin `dave` may mutate the
premium lesson, `bob` (premium but neither creator nor admin) is refused, and
an absent id yields not-found. -/
theorem updateDelete_ownership_witness :
    ((updateLesson exDB (some "alice") 1 emptyPatch).1 = MutRes.ok
      ∧ (deleteLesson exDB (some "alice") 1).1 = MutRes.ok)
    ∧ ((updateLesson exDB (some "dave") 1 emptyPatch).1 = MutRes.ok
      ∧ (deleteLesson exDB (some "dave") 1).1 = MutRes.ok)
    ∧ ((updateLesson exDB (some "bob") 1 emptyPatch).1 = MutRes.forbidden "Not authorized"
      ∧ (deleteLesson exDB (some "bob") 1).1 = MutRes.forbidden "Not authorized")
    ∧ ((updateLesson exDB (some "bob") 99 emptyPatch).1 = MutRes.notFound
      ∧ (deleteLesson exDB (some "bob") 99).1 = MutRes.notFound) := by
  refine ⟨?_, ?_, ?_, ?_⟩
  · exact ((updateDelete_ownership exDB "alice" 1 emptyPatch alice (by decide)).1
      premLesson (by decide)).mpr (Or.inl (by decide))
  · exact ((updateDelete_ownership exDB "dave" 1 emptyPatch dave (by decide)).1
      premLesson (by decide)).mpr (Or.inr (by decide))
  · exact (updateDelete_ownership exDB "bob" 1 emptyPatch bob (by decide)).2.1
      premLesson (by decide) (by decide) (by decide)
  · exact (updateDelete_ownership exDB "bob" 99 emptyPatch bob (by decide)).2.2 (by decide)

/-- The patch a malicious or careless client sends to reassign a lesson:
its body carries a `creatorEmail` field. -/
def stealPatch : LessonPatch :=
  ⟨some "mallory", none, none, none, none, none, none, none, none, none⟩

/-- C3 is violated by the code: `PUT /lessons/:id` writes `{ $set: req.body }`
with the raw body, so a patch carrying `creatorEmail` rewrites it.  Here the
creator `alice` updates her own lesson (id 2, `creatorEmail = "alice"`) with a
body naming `mallory`, the update reports success, and the stored lesson's
`creatorEmail` is now `mallory`. -/
theorem updateLesson_changes_creatorEmail :
    (findLesson exDB 2).map Lesson.creatorEmail = some "alice"
    ∧ (updateLesson exDB (some "alice") 2 stealPatch).1 = MutRes.ok
    ∧ (findLesson (updateLesson exDB (some "alice") 2 stealPatch).2 2).map
        Lesson.creatorEmail = some "mallory" := by
  refine ⟨by decide, by decide, by decide⟩

/-- The request body of `POST /lessons`.  The client may supply any lesson
field, `creatorEmail`, `likes`, `favorites` and `createdAt` included; the
handler overwrites those four before inserting. -/
structure NewLesson where
  creatorEmail : String
  accessLevel : String
  visibility : String
  category : String
  emotionalTone : String
  title : String
  content : String
  likes : List String
  favorites : List String
  createdAt : Nat
deriving DecidableEq

/-- The document `POST /lessons` inserts: the body with `creatorEmail` forced
to the caller, `createdAt` to now, and `likes`/`favorites` to empty, whatever
the body carried for them; `newId` is the store-generated `_id`. -/
def insertedLesson (data : NewLesson) (email : String) (newId : Nat) (now : Nat) : Lesson :=
  { id := newId
    creatorEmail := email
    accessLevel := data.accessLevel
    visibility := data.visibility
    category := data.category
    emotionalTone := data.emotionalTone
    title := data.title
    content := data.content
    likes := []
    favorites := []
    createdAt := now }

/-- Responses of `POST /lessons`. -/
inductive CreateRes
  | ok (inserted : Lesson)
  | forbidden (msg : String)
  | unauthorized
  | serverError
deriving DecidableEq

/-- `POST /lessons` (src/index.js lines 148-164).  The JS guard is
`data.accessLevel === "premium" && !user.isPremium`: for a premium body the
caller's account is dereferenced without a null check, so an authenticated
caller with no account would throw (modelled as `serverError`); for a
non-premium body `&&` short-circuits and the lookup result is never read. -/
def createLesson (db : DB) (caller : Option String) (data : NewLesson) (newId now : Nat) :
    CreateRes × DB :=
  match caller with
  | none => (.unauthorized, db)
  | some email =>
    let gate : Option Bool :=
      if data.accessLevel == "premium" then
        match findUser db email with
        | none => none
        | some u => some (!u.isPremium)
      else some false
    match gate with
    | none => (.serverError, db)
    | some true => (.forbidden "Upgrade to Premium to create premium lesson", db)
    | some false =>
      (.ok (insertedLesson data email newId now),
       { db with lessons := db.lessons ++ [insertedLesson data email newId now] })

/-- C5: for a premium body, a caller whose account is not premium is refused
with the premium-required message and the state is unchanged; a premium
caller's insert succeeds and the stored document's `creatorEmail` is the
caller, and its `likes` and `favorites` are empty, regardless of what the body
carried in those fields. -/
theorem createLesson_premium_gate (db : DB) (email : String) (data : NewLesson)
    (newId now : Nat) (acct : Account) (hacct : findUser db email = some acct)
    (hprem : data.accessLevel = "premium") :
    (acct.isPremium = false →
      createLesson db (some email) data newId now =
        (CreateRes.forbidden "Upgrade to Premium to create premium lesson", db))
    ∧ (acct.isPremium = true →
      createLesson db (some email) data newId now =
        (CreateRes.ok (insertedLesson data email newId now),
         { db with lessons := db.lessons ++ [insertedLesson data email newId now] })
      ∧ (insertedLesson data email newId now).creatorEmail = email
      ∧ (insertedLesson data email newId now).likes = []
      ∧ (insertedLesson data email newId now).favorites = []) := by
  constructor
  · intro hp
    simp [createLesson, hacct, hprem, hp]
  · intro hp
    refine ⟨?_, rfl, rfl, rfl⟩
    simp [createLesson, hacct, hprem, hp]

/-- A premium lesson body whose server-assigned fields all carry client junk. -/
def junkLesson : NewLesson :=
  ⟨"mallory", "premium", "public", "life", "calm", "Premium spam", "text",
   ["a", "a"], ["b"], 999⟩

/-- C5 at concrete inputs: a premium body whose `creatorEmail`, `likes` and
`favorites` fields all carry junk.  Non-premium `carol` is refused; premium
`bob` succeeds and the stored document carries `bob`, `[]`, `[]`. -/
theorem createLesson_premium_gate_witness :
    createLesson exDB (some "carol") junkLesson 7 50 =
      (CreateRes.forbidden "Upgrade to Premium to create premium lesson", exDB)
    ∧ (createLesson exDB (some "bob") junkLesson 7 50 =
        (CreateRes.ok (insertedLesson junkLesson "bob" 7 50),
         { exDB with lessons := exDB.lessons ++ [insertedLesson junkLesson "bob" 7 50] })
      ∧ (insertedLesson junkLesson "bob" 7 50).creatorEmail = "bob"
      ∧ (insertedLesson junkLesson "bob" 7 50).likes = []
      ∧ (insertedLesson junkLesson "bob" 7 50).favorites = []) := by
  refine ⟨?_, ?_⟩
  · exact (createLesson_premium_gate exDB "carol" junkLesson 7 50 carol (by decide)
      (by decide)).1 (by decide)
  · exact (createLesson_premium_gate exDB "bob" junkLesson 7 50 bob (by decide)
      (by decide)).2 (by decide)

/-- The request body of `POST /users`: an email plus whatever else the client
sends — including attempts to set `role` or `isPremium`, which the handler
overwrites before inserting. -/
structure RegisterPayload where
  email : String
  role : String
  isPremium : Bool
  createdAt : Nat
  profile : String
deriving DecidableEq

/-- Responses of `POST /users`; both are HTTP 200. -/
inductive RegisterRes
  | alreadyExists
  | created
deriving DecidableEq

/-- `POST /users` (src/index.js lines 82-91): if an account with the body's
email exists, report "User already exists" and change nothing; otherwise insert
the body with `role = "user"`, `isPremium = false` and `createdAt = now`
overwriting whatever the body carried. -/
def register (db : DB) (body : RegisterPayload) (now : Nat) : RegisterRes × DB :=
  match findUser db body.email with
  | some _ => (.alreadyExists, db)
  | none =>
    (.created,
     { db with users := db.users ++ [⟨body.email, "user", false, now, body.profile⟩] })

/-- Appending one element to a list in which `find?` fails continues the
search at the new element. -/
theorem find?_append_singleton {α : Type} (p : α → Bool) (l : List α) (a : α)
    (h : l.find? p = none) :
    (l ++ [a]).find? p = if p a then some a else none := by
  induction l with
  | nil =>
    cases hp : p a <;> simp [List.find?, hp]
  | cons x xs ih =>
    cases hx : p x
    · rw [List.find?_cons_of_neg _ (by simp [hx])] at h
      rw [List.cons_append, List.find?_cons_of_neg _ (by simp [hx])]
      exact ih h
    · rw [List.find?_cons_of_pos _ hx] at h
      exact absurd h (by simp)

/-- An email on which `findUser` fails occurs in no stored account. -/
theorem email_not_mem_of_findUser_none (db : DB) (e : String)
    (h : findUser db e = none) : e ∉ db.users.map Account.email := by
  intro hmem
  rcases List.mem_map.mp hmem with ⟨u, hu, hue⟩
  have h2 : db.users.find? (fun (u : Account) => u.email == e) = none := h
  have h3 := List.find?_eq_none.mp h2 u hu
  simp [hue] at h3

/-- C6: registering an email that already has an account returns the non-error
already-exists result and leaves the whole state — every field of every
account — unchanged; a fresh email appends exactly one account whose `role` is
`"user"` and `isPremium` is `false` whatever the body asked for; registering
again right after is the no-op case; and the at-most-one-account-per-email
invariant is preserved. -/
theorem register_idempotent (db : DB) (body : RegisterPayload) (now now2 : Nat) :
    (∀ acct, findUser db body.email = some acct →
      register db body now = (RegisterRes.alreadyExists, db))
    ∧ (findUser db body.email = none →
      register db body now =
        (RegisterRes.created,
         { db with users := db.users ++ [⟨body.email, "user", false, now, body.profile⟩] }))
    ∧ register (register db body now).2 body now2 =
        (RegisterRes.alreadyExists, (register db body now).2)
    ∧ ((db.users.map Account.email).Nodup →
        ((register db body now).2.users.map Account.email).Nodup) := by
  have hexists : ∀ (d : DB) (t : Nat) (a : Account), findUser d body.email = some a →
      register d body t = (RegisterRes.alreadyExists, d) := by
    intro d t a ha
    simp [register, ha]
  refine ⟨?_, ?_, ?_, ?_⟩
  · intro acct hacct
    exact hexists db now acct hacct
  · intro hnone
    simp [register, hnone]
  · cases hfind : findUser db body.email with
    | some acct =>
      have h2 : (register db body now).2 = db := by simp [register, hfind]
      rw [h2]
      exact hexists db now2 acct hfind
    | none =>
      have hstep : (register db body now).2 =
          { db with users := db.users ++ [⟨body.email, "user", false, now, body.profile⟩] } := by
        simp [register, hfind]
      have hagain : findUser (register db body now).2 body.email =
          some ⟨body.email, "user", false, now, body.profile⟩ := by
        rw [hstep]
        show (db.users ++ [_]).find? (fun (u : Account) => u.email == body.email) = _
        rw [find?_append_singleton _ _ _ hfind]
        simp
      exact hexists _ now2 _ hagain
  · intro hnodup
    cases hfind : findUser db body.email with
    | some acct =>
      simpa [register, hfind] using hnodup
    | none =>
      have hnm := email_not_mem_of_findUser_none db body.email hfind
      simp [register, hfind, List.nodup_append, hnodup, hnm]

/-- C6 at concrete inputs: re-registering `alice` (with a body claiming admin
and premium) changes nothing; registering fresh `eve` with the same malicious
body creates one account with `role = "user"`, `isPremium = false`. -/
theorem register_idempotent_witness :
    register exDB ⟨"alice", "admin", true, 77, "junk"⟩ 77 = (RegisterRes.alreadyExists, exDB)
    ∧ register exDB ⟨"eve", "admin", true, 77, "junk"⟩ 77 =
        (RegisterRes.created,
         { exDB with users := exDB.users ++ [⟨"eve", "user", false, 77, "junk"⟩] }) := by
  refine ⟨?_, ?_⟩
  · exact (register_idempotent exDB ⟨"alice", "admin", true, 77, "junk"⟩ 77 0).1
      alice (by decide)
  · exact (register_idempotent exDB ⟨"eve", "admin", true, 77, "junk"⟩ 77 0).2.1 (by decide)

/-- One pattern character against one text character, for the fragment of
MongoDB `$regex` syntax these keywords can reach: `.` matches any character,
every other character matches itself; `$options: "i"` makes the comparison
case-insensitive. -/
def charMatch (p c : Char) : Bool :=
  p == '.' || p.toLower == c.toLower

/-- The pattern (a plain character sequence in the modelled fragment) matches
the front of the text. -/
def patHere : List Char → List Char → Bool
  | [], _ => true
  | _ :: _, [] => false
  | p :: ps, c :: cs => charMatch p c && patHere ps cs

/-- Unanchored `$regex` search: the pattern matches at some position of the
text. -/
def patSearch (ps : List Char) : List Char → Bool
  | [] => patHere ps []
  | c :: cs => patHere ps (c :: cs) || patSearch ps cs

/-- The filter clause `{ title: { $regex: keyword, $options: "i" } }`
(src/index.js line 112), for keywords inside the modelled fragment. -/
def titleRegexI (keyword title : String) : Bool :=
  patSearch keyword.data title.data

/-- The spec sentence's reading of the same clause: the keyword taken as a
LITERAL character sequence, compared case-insensitively. -/
def litHere : List Char → List Char → Bool
  | [], _ => true
  | _ :: _, [] => false
  | p :: ps, c :: cs => (p.toLower == c.toLower) && litHere ps cs

/-- Literal case-insensitive substring search, the behaviour the claim
ascribes to `keyword`. -/
def litSubstr (ps : List Char) : List Char → Bool
  | [] => litHere ps []
  | c :: cs => litHere ps (c :: cs) || litSubstr ps cs

/-- `keyword` occurs in `title` as a case-insensitive literal substring. -/
def titleContainsCI (keyword title : String) : Bool :=
  litSubstr keyword.data title.data

/-- The find filter built by `GET /lessons` (src/index.js lines 105-113).
JS `if (category)` tests truthiness, so an absent or empty parameter is
modelled as `none` and contributes no clause. -/
def lessonQuery (category emotionalTone keyword : Option String) (l : Lesson) : Bool :=
  l.visibility == "public"
    && (match category with
        | none => true
        | some c => l.category == c)
    && (match emotionalTone with
        | none => true
        | some t => l.emotionalTone == t)
    && (match keyword with
        | none => true
        | some k => titleRegexI k l.title)

/-- Insert a lesson into a list already ordered by `createdAt` descending. -/
def insertNewest (l : Lesson) : List Lesson → List Lesson
  | [] => [l]
  | x :: xs => if x.createdAt ≤ l.createdAt then l :: x :: xs else x :: insertNewest l xs

/-- `sortBy=newest`: `cursor.sort({ createdAt: -1 })`, `createdAt`
descending. -/
def sortNewest : List Lesson → List Lesson
  | [] => []
  | x :: xs => insertNewest x (sortNewest xs)

/-- `GET /lessons` (src/index.js lines 105-123); the one unauthenticated
lesson read.  `sortBy=mostSaved` sorts on the dotted path
`"favorites.length"`, which no document carries, so every document has the
same missing sort key; modelled as leaving the filtered order unchanged, like
the absent/other `sortBy` case. -/
def listLessons (db : DB) (category emotionalTone keyword sortBy : Option String) :
    List Lesson :=
  let base := db.lessons.filter (lessonQuery category emotionalTone keyword)
  if sortBy == some "newest" then sortNewest base else base

theorem mem_insertNewest (a x : Lesson) (xs : List Lesson) :
    a ∈ insertNewest x xs ↔ a = x ∨ a ∈ xs := by
  induction xs with
  | nil => simp [insertNewest]
  | cons y ys ih =>
    by_cases h : y.createdAt ≤ x.createdAt
    · simp [insertNewest, h]
    · simp [insertNewest, h, ih, or_left_comm]

theorem mem_sortNewest (a : Lesson) (ls : List Lesson) :
    a ∈ sortNewest ls ↔ a ∈ ls := by
  induction ls with
  | nil => simp [sortNewest]
  | cons x xs ih => simp [sortNewest, mem_insertNewest, ih]

/-- Unfolding of the query predicate into its clauses. -/
theorem lessonQuery_eq_true (category emotionalTone keyword : Option String) (l : Lesson) :
    lessonQuery category emotionalTone keyword l = true ↔
      l.visibility = "public"
        ∧ (∀ c, category = some c → l.category = c)
        ∧ (∀ t, emotionalTone = some t → l.emotionalTone = t)
        ∧ (∀ k, keyword = some k → titleRegexI k l.title = true) := by
  cases category <;> cases emotionalTone <;> cases keyword <;>
    simp [lessonQuery, and_assoc]

theorem patHere_eq_litHere (ps : List Char) (cs : List Char) (h : '.' ∉ ps) :
    patHere ps cs = litHere ps cs := by
  induction ps generalizing cs with
  | nil => cases cs <;> simp [patHere, litHere]
  | cons p ps ih =>
    simp only [List.mem_cons, not_or] at h
    cases cs with
    | nil => simp [patHere, litHere]
    | cons c cs =>
      have hp : (p == '.') = false := by
        simp only [beq_eq_false_iff_ne, ne_eq]
        exact fun he => h.1 he.symm
      simp [patHere, litHere, charMatch, hp, ih _ h.2]

theorem patSearch_eq_litSubstr (ps : List Char) (cs : List Char) (h : '.' ∉ ps) :
    patSearch ps cs = litSubstr ps cs := by
  induction cs with
  | nil => simp [patSearch, litSubstr, patHere_eq_litHere _ _ h]
  | cons c cs ih => simp [patSearch, litSubstr, patHere_eq_litHere _ _ h, ih]

/-- A public lesson whose title is "abc": the keyword "a.c" selects it even
though "a.c" is not a literal substring of the title. -/
def dotLesson : Lesson :=
  ⟨7, "alice", "public", "public", "life", "calm", "abc", "text", [], [], 1⟩

def dotDB : DB := ⟨[], [dotLesson]⟩

/-- C7 as stated is false on the code: the keyword reaches the store as a
`$regex` pattern, not a literal; with keyword "a.c" the lesson titled "abc" is
in the listing although "a.c" is not a case-insensitive literal substring of
"abc". -/
theorem listLessons_keyword_pattern_counterexample :
    dotLesson ∈ listLessons dotDB none none (some "a.c") none
    ∧ titleContainsCI "a.c" dotLesson.title = false := by
  exact ⟨by decide, by decide⟩

/-- C7 amended: with a keyword, the listing returns exactly the stored lessons
that have public visibility, pass the other active filters, and whose title
matches the keyword as a case-insensitive `$regex` pattern; for a keyword free
of the fragment's one metacharacter (no '.') the pattern test coincides with
literal case-insensitive substring containment. -/
theorem listLessons_keyword_regex (db : DB) (category emotionalTone sortBy : Option String)
    (k : String) (l : Lesson) :
    (l ∈ listLessons db category emotionalTone (some k) sortBy ↔
      l ∈ db.lessons ∧ l.visibility = "public"
        ∧ (∀ c, category = some c → l.category = c)
        ∧ (∀ t, emotionalTone = some t → l.emotionalTone = t)
        ∧ titleRegexI k l.title = true)
    ∧ ('.' ∉ k.data → titleRegexI k l.title = titleContainsCI k l.title) := by
  constructor
  · have hbase : l ∈ db.lessons.filter (lessonQuery category emotionalTone (some k)) ↔
        l ∈ db.lessons ∧ l.visibility = "public"
          ∧ (∀ c, category = some c → l.category = c)
          ∧ (∀ t, emotionalTone = some t → l.emotionalTone = t)
          ∧ titleRegexI k l.title = true := by
      rw [List.mem_filter, lessonQuery_eq_true]
      constructor
      · rintro ⟨hm, h1, h2, h3, h4⟩
        exact ⟨hm, h1, h2, h3, h4 k rfl⟩
      · rintro ⟨hm, h1, h2, h3, h4⟩
        refine ⟨hm, h1, h2, h3, ?_⟩
        intro k2 hk2
        cases hk2
        exact h4
    by_cases hs : sortBy = some "newest"
    · rw [show listLessons db category emotionalTone (some k) sortBy =
          sortNewest (db.lessons.filter (lessonQuery category emotionalTone (some k))) by
            simp [listLessons, hs]]
      rw [mem_sortNewest]
      exact hbase
    · rw [show listLessons db category emotionalTone (some k) sortBy =
          db.lessons.filter (lessonQuery category emotionalTone (some k)) by
            simp [listLessons, hs]]
      exact hbase
  · intro hdot
    exact patSearch_eq_litSubstr _ _ hdot

/-- C7 amended, at concrete inputs: the keyword "WISDOM" (dot-free, upper
case) selects the public lesson titled "Open wisdom", and on that lesson the
pattern test agrees with literal substring containment. -/
theorem listLessons_keyword_regex_witness :
    pubLesson ∈ listLessons exDB none none (some "WISDOM") none
    ∧ titleRegexI "WISDOM" pubLesson.title = titleContainsCI "WISDOM" pubLesson.title := by
  refine ⟨?_, ?_⟩
  · exact (listLessons_keyword_regex exDB none none none "WISDOM" pubLesson).1.mpr
      ⟨by decide, by decide, by simp, by simp, by decide⟩
  · exact (listLessons_keyword_regex exDB none none none "WISDOM" pubLesson).2 (by decide)

/-- Responses of the like/favorite routes. -/
inductive LikeRes
  | message (msg : String)
  | unauthorized
deriving DecidableEq

/-- Mongo `$addToSet`: insert the value into the array field only when it is
not already present. -/
def addToSet (x : String) (xs : List String) : List String :=
  if xs.contains x then xs else xs ++ [x]

/-- `POST /lessons/:id/like` (src/index.js lines 204-210): one unconditional
`updateOne` with `$addToSet { likes }`; the response says "Liked" whether or
not any document matched the id. -/
def toggleLike (db : DB) (caller : Option String) (id : Nat) : LikeRes × DB :=
  match caller with
  | none => (.unauthorized, db)
  | some email =>
    (.message "Liked",
     { db with
         lessons := updateFirstLesson db.lessons id
           (fun l => { l with likes := addToSet email l.likes }) })

/-- `POST /lessons/:id/favorite` (src/index.js lines 212-218): the same with
`favorites` and "Favorited". -/
def toggleFavorite (db : DB) (caller : Option String) (id : Nat) : LikeRes × DB :=
  match caller with
  | none => (.unauthorized, db)
  | some email =>
    (.message "Favorited",
     { db with
         lessons := updateFirstLesson db.lessons id
           (fun l => { l with favorites := addToSet email l.favorites }) })

/-- The state after `n` repeated like calls by the same caller on the same id. -/
def iterLike (db : DB) (email : String) (id : Nat) : Nat → DB
  | 0 => db
  | n + 1 => (toggleLike (iterLike db email id n) (some email) id).2

/-- The state after `n` repeated favorite calls by the same caller on the same
id. -/
def iterFavorite (db : DB) (email : String) (id : Nat) : Nat → DB
  | 0 => db
  | n + 1 => (toggleFavorite (iterFavorite db email id n) (some email) id).2

theorem addToSet_self_mem (x : String) (xs : List String) : x ∈ addToSet x xs := by
  by_cases h : x ∈ xs
  · simp [addToSet, h]
  · simp [addToSet, h]

theorem addToSet_idem (x : String) (xs : List String) :
    addToSet x (addToSet x xs) = addToSet x xs := by
  by_cases hc : x ∈ xs
  · simp [addToSet, hc]
  · simp [addToSet, hc]

theorem addToSet_count_self (x : String) (xs : List String) (h : xs.Nodup) :
    (addToSet x xs).count x = 1 := by
  by_cases hc : x ∈ xs
  · simpa [addToSet, hc] using List.count_eq_one_of_mem h hc
  · simp [addToSet, hc, List.count_eq_zero_of_not_mem hc]

theorem addToSet_nodup (x : String) (xs : List String) (h : xs.Nodup) :
    (addToSet x xs).Nodup := by
  by_cases hc : x ∈ xs
  · simpa [addToSet, hc] using h
  · simp [addToSet, hc, List.nodup_append, h]

/-- `updateOne` touching no field used by the match leaves `find?` pointing at
the image of the first match. -/
theorem find?_updateFirstLesson (ls : List Lesson) (id : Nat) (f : Lesson → Lesson)
    (hid : ∀ l, (f l).id = l.id) :
    (updateFirstLesson ls id f).find? (fun (l : Lesson) => l.id == id) =
      (ls.find? (fun (l : Lesson) => l.id == id)).map f := by
  induction ls with
  | nil => simp [updateFirstLesson]
  | cons l rest ih =>
    by_cases h : l.id = id
    · simp [updateFirstLesson, h, hid]
    · simp [updateFirstLesson, h, ih]

/-- An `updateOne` whose per-document action is idempotent is idempotent on
the collection. -/
theorem updateFirstLesson_idem (ls : List Lesson) (id : Nat) (f : Lesson → Lesson)
    (hid : ∀ l, (f l).id = l.id) (hff : ∀ l, f (f l) = f l) :
    updateFirstLesson (updateFirstLesson ls id f) id f = updateFirstLesson ls id f := by
  induction ls with
  | nil => simp [updateFirstLesson]
  | cons l rest ih =>
    by_cases h : l.id = id
    · simp [updateFirstLesson, h, hid, hff]
    · simp [updateFirstLesson, h, ih]

/-- An `updateOne` matching no document changes nothing. -/
theorem updateFirstLesson_no_match (ls : List Lesson) (id : Nat) (f : Lesson → Lesson)
    (h : ls.find? (fun (l : Lesson) => l.id == id) = none) :
    updateFirstLesson ls id f = ls := by
  induction ls with
  | nil => rfl
  | cons l rest ih =>
    by_cases hl : l.id = id
    · rw [List.find?_cons_of_pos _ (by simp [hl])] at h
      exact absurd h (by simp)
    · rw [List.find?_cons_of_neg _ (by simp [hl])] at h
      simp [updateFirstLesson, hl, ih h]

/-- A second like by the same caller undoes nothing and adds nothing. -/
theorem toggleLike_idem (db : DB) (email : String) (id : Nat) :
    (toggleLike (toggleLike db (some email) id).2 (some email) id).2 =
      (toggleLike db (some email) id).2 := by
  show ({ users := db.users,
          lessons := updateFirstLesson (updateFirstLesson db.lessons id
              (fun l => { l with likes := addToSet email l.likes })) id
            (fun l => { l with likes := addToSet email l.likes }) } : DB) =
      { users := db.users,
        lessons := updateFirstLesson db.lessons id
          (fun l => { l with likes := addToSet email l.likes }) }
  congr 1
  exact updateFirstLesson_idem _ _ _ (fun l => rfl) (fun l => by simp [addToSet_idem])

/-- A second favorite by the same caller undoes nothing and adds nothing. -/
theorem toggleFavorite_idem (db : DB) (email : String) (id : Nat) :
    (toggleFavorite (toggleFavorite db (some email) id).2 (some email) id).2 =
      (toggleFavorite db (some email) id).2 := by
  show ({ users := db.users,
          lessons := updateFirstLesson (updateFirstLesson db.lessons id
              (fun l => { l with favorites := addToSet email l.favorites })) id
            (fun l => { l with favorites := addToSet email l.favorites }) } : DB) =
      { users := db.users,
        lessons := updateFirstLesson db.lessons id
          (fun l => { l with favorites := addToSet email l.favorites }) }
  congr 1
  exact updateFirstLesson_idem _ _ _ (fun l => rfl) (fun l => by simp [addToSet_idem])

theorem iterLike_stable (db : DB) (email : String) (id : Nat) (n : Nat) :
    iterLike db email id (n + 1) = iterLike db email id 1 := by
  induction n with
  | zero => rfl
  | succ m ih =>
    show (toggleLike (iterLike db email id (m + 1)) (some email) id).2 = _
    rw [ih]
    exact toggleLike_idem db email id

theorem iterFavorite_stable (db : DB) (email : String) (id : Nat) (n : Nat) :
    iterFavorite db email id (n + 1) = iterFavorite db email id 1 := by
  induction n with
  | zero => rfl
  | succ m ih =>
    show (toggleFavorite (iterFavorite db email id (m + 1)) (some email) id).2 = _
    rw [ih]
    exact toggleFavorite_idem db email id

theorem findLesson_iterLike_one (db : DB) (email : String) (id : Nat) (lesson : Lesson)
    (hfind : findLesson db id = some lesson) :
    findLesson (iterLike db email id 1) id =
      some { lesson with likes := addToSet email lesson.likes } := by
  show (updateFirstLesson db.lessons id
      (fun l => { l with likes := addToSet email l.likes })).find?
        (fun (l : Lesson) => l.id == id) = _
  rw [find?_updateFirstLesson db.lessons id
    (fun l => { l with likes := addToSet email l.likes }) (fun l => rfl)]
  rw [show db.lessons.find? (fun (l : Lesson) => l.id == id) = some lesson from hfind]
  rfl

theorem findLesson_iterFavorite_one (db : DB) (email : String) (id : Nat) (lesson : Lesson)
    (hfind : findLesson db id = some lesson) :
    findLesson (iterFavorite db email id 1) id =
      some { lesson with favorites := addToSet email lesson.favorites } := by
  show (updateFirstLesson db.lessons id
      (fun l => { l with favorites := addToSet email l.favorites })).find?
        (fun (l : Lesson) => l.id == id) = _
  rw [find?_updateFirstLesson db.lessons id
    (fun l => { l with favorites := addToSet email l.favorites }) (fun l => rfl)]
  rw [show db.lessons.find? (fun (l : Lesson) => l.id == id) = some lesson from hfind]
  rfl

/-- C8: like and favorite are idempotent set-inserts: on an existing lesson
with duplicate-free sets, n + 1 ≥ 1 repeated calls by the same caller leave
the respective set with exactly one entry for that email and no duplicates,
and every call after the first changes nothing: the state after n + 1 calls
is the state after one. -/
theorem likeFavorite_idempotent (db : DB) (email : String) (id : Nat) (lesson : Lesson)
    (hfind : findLesson db id = some lesson)
    (hlik : lesson.likes.Nodup) (hfav : lesson.favorites.Nodup) (n : Nat) :
    (∃ l2, findLesson (iterLike db email id (n + 1)) id = some l2
        ∧ l2.likes.count email = 1 ∧ l2.likes.Nodup)
    ∧ iterLike db email id (n + 1) = iterLike db email id 1
    ∧ (∃ l2, findLesson (iterFavorite db email id (n + 1)) id = some l2
        ∧ l2.favorites.count email = 1 ∧ l2.favorites.Nodup)
    ∧ iterFavorite db email id (n + 1) = iterFavorite db email id 1 := by
  refine ⟨?_, iterLike_stable db email id n, ?_, iterFavorite_stable db email id n⟩
  · rw [iterLike_stable db email id n]
    exact ⟨{ lesson with likes := addToSet email lesson.likes },
      findLesson_iterLike_one db email id lesson hfind,
      addToSet_count_self email lesson.likes hlik,
      addToSet_nodup email lesson.likes hlik⟩
  · rw [iterFavorite_stable db email id n]
    exact ⟨{ lesson with favorites := addToSet email lesson.favorites },
      findLesson_iterFavorite_one db email id lesson hfind,
      addToSet_count_self email lesson.favorites hfav,
      addToSet_nodup email lesson.favorites hfav⟩

/-- C8 at concrete inputs: three likes and three favorites by `bob` on the
public lesson (which already holds one entry "x" in each set) land in the same
state as a single call. -/
theorem likeFavorite_idempotent_witness :
    iterLike exDB "bob" 2 3 = iterLike exDB "bob" 2 1
    ∧ iterFavorite exDB "bob" 2 3 = iterFavorite exDB "bob" 2 1 := by
  refine ⟨?_, ?_⟩
  · exact (likeFavorite_idempotent exDB "bob" 2 pubLesson (by decide) (by decide)
      (by decide) 2).2.1
  · exact (likeFavorite_idempotent exDB "bob" 2 pubLesson (by decide) (by decide)
      (by decide) 2).2.2.2

/-- C10 (implicit): like and favorite on an id matching no stored lesson do
not report not-found: they return the very acknowledgements every call
returns ("Liked" / "Favorited") and leave the state, hence every stored
lesson, unchanged. -/
theorem likeFavorite_missing_id (db : DB) (email : String) (id : Nat)
    (habs : findLesson db id = none) :
    toggleLike db (some email) id = (LikeRes.message "Liked", db)
    ∧ toggleFavorite db (some email) id = (LikeRes.message "Favorited", db)
    ∧ (∀ (d : DB) (e : String) (j : Nat),
        (toggleLike d (some e) j).1 = LikeRes.message "Liked")
    ∧ (∀ (d : DB) (e : String) (j : Nat),
        (toggleFavorite d (some e) j).1 = LikeRes.message "Favorited") := by
  refine ⟨?_, ?_, fun d e j => rfl, fun d e j => rfl⟩
  · show (LikeRes.message "Liked",
      ({ users := db.users,
         lessons := updateFirstLesson db.lessons id
           (fun l => { l with likes := addToSet email l.likes }) } : DB)) = _
    rw [updateFirstLesson_no_match _ _ _ habs]
  · show (LikeRes.message "Favorited",
      ({ users := db.users,
         lessons := updateFirstLesson db.lessons id
           (fun l => { l with favorites := addToSet email l.favorites }) } : DB)) = _
    rw [updateFirstLesson_no_match _ _ _ habs]

/-- C10 at concrete inputs: id 99 matches nothing in the example database;
both calls acknowledge success and return the state untouched. -/
theorem likeFavorite_missing_id_witness :
    toggleLike exDB (some "bob") 99 = (LikeRes.message "Liked", exDB)
    ∧ toggleFavorite exDB (some "bob") 99 = (LikeRes.message "Favorited", exDB) := by
  refine ⟨?_, ?_⟩
  · exact (likeFavorite_missing_id exDB "bob" 99 (by decide)).1
  · exact (likeFavorite_missing_id exDB "bob" 99 (by decide)).2.1

/-- The request body of `POST /payment-success`.  It may carry an `email`
field — the handler never reads any of it. -/
structure PaymentBody where
  email : Option String
deriving DecidableEq

/-- Responses of `POST /payment-success`. -/
inductive PayRes
  | success
  | unauthorized
deriving DecidableEq

/-- `updateOne` semantics on the users collection: rewrite the first document
matching the email filter, leave everything else alone. -/
def updateFirstUser (us : List Account) (email : String) (f : Account → Account) :
    List Account :=
  match us with
  | [] => []
  | u :: rest => if u.email == email then f u :: rest else u :: updateFirstUser rest email f

/-- `POST /payment-success` (src/index.js lines 255-261): one `updateOne` with
filter `{ email: req.user.email }` — the caller's resolved identity, never
anything from the body — setting `isPremium: true`. -/
def paymentSuccess (db : DB) (caller : Option String) (body : PaymentBody) : PayRes × DB :=
  match caller with
  | none => (.unauthorized, db)
  | some email =>
    (.success,
     { db with
         users := updateFirstUser db.users email (fun u => { u with isPremium := true }) })

/-- Under the one-account-per-email invariant, the first-match update is the
pointwise update of exactly the accounts carrying that email. -/
theorem updateFirstUser_eq_map (us : List Account) (email : String) (f : Account → Account)
    (hnodup : (us.map Account.email).Nodup) :
    updateFirstUser us email f =
      us.map (fun u => if u.email = email then f u else u) := by
  induction us with
  | nil => rfl
  | cons u rest ih =>
    simp only [List.map_cons, List.nodup_cons] at hnodup
    by_cases h : u.email = email
    · have hrest : ∀ v ∈ rest, v.email ≠ email := by
        intro v hv he
        refine hnodup.1 ?_
        rw [h, ← he]
        exact List.mem_map_of_mem Account.email hv
      have hmap : rest.map (fun u => if u.email = email then f u else u) = rest := by
        conv_rhs => rw [← List.map_id rest]
        exact List.map_congr_left (fun v hv => by simp [hrest v hv])
      simp [updateFirstUser, h, hmap]
    · simp [updateFirstUser, h, ih hnodup.2]

/-- C9: `confirmPayment` marks premium the caller's own account only: the
response ignores the body entirely (any body gives the same result as an empty
one), the new users list is the old one with `isPremium := true` exactly on
accounts whose email is the caller's resolved identity, and every other
account is returned unchanged. -/
theorem paymentSuccess_own_account (db : DB) (email : String) (body : PaymentBody)
    (hnodup : (db.users.map Account.email).Nodup) :
    (paymentSuccess db (some email) body).1 = PayRes.success
    ∧ (paymentSuccess db (some email) body).2.users =
        db.users.map (fun u => if u.email = email then { u with isPremium := true } else u)
    ∧ paymentSuccess db (some email) body = paymentSuccess db (some email) ⟨none⟩
    ∧ (paymentSuccess db (some email) body).2.lessons = db.lessons := by
  refine ⟨rfl, ?_, rfl, rfl⟩
  show updateFirstUser db.users email (fun u => { u with isPremium := true }) = _
  exact updateFirstUser_eq_map db.users email _ hnodup

/-- C9 at concrete inputs: `carol` confirms payment with a body naming
`alice`; only `carol`'s account flips to premium, every other account and all
lessons are untouched, and the body might as well have been empty. -/
theorem paymentSuccess_own_account_witness :
    (paymentSuccess exDB (some "carol") ⟨some "alice"⟩).1 = PayRes.success
    ∧ (paymentSuccess exDB (some "carol") ⟨some "alice"⟩).2.users =
        exDB.users.map
          (fun u => if u.email = "carol" then { u with isPremium := true } else u)
    ∧ paymentSuccess exDB (some "carol") ⟨some "alice"⟩ =
        paymentSuccess exDB (some "carol") ⟨none⟩
    ∧ (paymentSuccess exDB (some "carol") ⟨some "alice"⟩).2.lessons = exDB.lessons := by
  exact paymentSuccess_own_account exDB "carol" ⟨some "alice"⟩ (by decide)

end DigitalLife
